import Mathlib

/-!
Verification of the SQL schema-qualification rewriter of the
`integracao_etl_geodata` repository.

The development shallowly embeds the two rewriter variants:

* `add_schema_to_sql` / `extract_table_names_from_sql`
  (src/add_schema_bentivi.py), and
* `add_bentivi_schema` (src/add_schema.py),

as executable functions over `List Char` (documents are ASCII SQL text).
The Python code drives everything through a handful of concrete regular
expressions; each regex is embedded as the scanning function it denotes:
left-to-right scanning, leftmost match, one-character advance on failure,
continuation after the end of a match, case-insensitive ASCII letter
comparison, `\b` tested against the ASCII word-character class
`[A-Za-z0-9_]`, and greedy `\s+` (maximal munch is exact here because in
every pattern the token after `\s+` starts with a non-space character).
Scanners that can jump over more than one character per step take an
explicit fuel argument; every caller passes `length + 1`, which is
sufficient because each step consumes at least one character.
-/

/-- Word characters of the regex class `\w` restricted to ASCII,
which is the alphabet of all the documents involved: `[A-Za-z0-9_]`. -/
def isWordChar (c : Char) : Bool :=
  c.isAlpha || c.isDigit || c == '_'

/-- Whitespace characters matched by the regex class `\s` (ASCII part):
space, tab, newline, vertical tab, form feed, carriage return. -/
def isSpaceChar (c : Char) : Bool :=
  c.toNat == 32 || c.toNat == 9 || c.toNat == 10 ||
  c.toNat == 11 || c.toNat == 12 || c.toNat == 13

/-- Case-insensitive character comparison, as performed by `re.IGNORECASE`
on ASCII input. -/
def ciEq (a b : Char) : Bool := a.toUpper == b.toUpper

/-- Uppercase a name, as Python's `str.upper()` does on ASCII. -/
def upperStr (s : List Char) : List Char := s.map Char.toUpper

/-- Match the pattern word `p` case-insensitively at the start of `s`,
returning the remaining suffix on success. -/
def matchCI : List Char → List Char → Option (List Char)
  | [], s => some s
  | _ :: _, [] => none
  | p :: ps, c :: cs => if ciEq p c then matchCI ps cs else none

/-- Case-sensitive test that `p` is a prefix of `s`. -/
def startsEx : List Char → List Char → Bool
  | [], _ => true
  | _ :: _, [] => false
  | p :: ps, c :: cs => p == c && startsEx ps cs

/-- Case-insensitive test that `p` is a prefix of `s`. -/
def startsCI : List Char → List Char → Bool
  | [], _ => true
  | _ :: _, [] => false
  | p :: ps, c :: cs => ciEq p c && startsCI ps cs

/-- Case-sensitive substring test (used only to state claims). -/
def containsSub (pat : List Char) : List Char → Bool
  | [] => startsEx pat []
  | c :: cs => startsEx pat (c :: cs) || containsSub pat cs

/-- Case-insensitive substring test (used only to state claims). -/
def containsSubCI (pat : List Char) : List Char → Bool
  | [] => startsCI pat []
  | c :: cs => startsCI pat (c :: cs) || containsSubCI pat cs

/-- Consume the regex `\s+`: at least one whitespace character, greedily. -/
def takeWs : List Char → Option (List Char)
  | [] => none
  | c :: cs => if isSpaceChar c then some (cs.dropWhile isSpaceChar) else none

/-- Match a keyword phrase given as a list of words joined by `\s+`
(e.g. `INNER\s+JOIN`), case-insensitively, returning the suffix after it. -/
def matchWords : List (List Char) → List Char → Option (List Char)
  | [], s => some s
  | [w], s => matchCI w s
  | w :: ws, s =>
    match matchCI w s with
    | none => none
    | some s1 =>
      match takeWs s1 with
      | none => none
      | some s2 => matchWords ws s2

/-- Trailing `\b` after an identifier: the next character, if any,
is not a word character. -/
def boundaryOk : List Char → Bool
  | [] => true
  | c :: _ => !(isWordChar c)

/-- Fuel-driven core of `re.sub(r'--.*$', '', s, flags=re.MULTILINE)`:
delete everything from each `--` to the end of its line. -/
def stripLineF : Nat → List Char → List Char
  | 0, s => s
  | _ + 1, [] => []
  | fuel + 1, c :: cs =>
    if c = '-' then
      match cs with
      | c2 :: cs2 =>
        if c2 = '-' then stripLineF fuel (cs2.dropWhile (fun x => !(x = '\n')))
        else c :: stripLineF fuel cs
      | [] => [c]
    else c :: stripLineF fuel cs

/-- Remove single-line `-- ...` comments (line 31 of add_schema_bentivi.py). -/
def stripLineComments (s : List Char) : List Char := stripLineF (s.length + 1) s

/-- Find the first block-comment closer `*/` and return the suffix after it
(the non-greedy `.*?` of the block-comment regex). -/
def splitAtClose : List Char → Option (List Char)
  | [] => none
  | c :: cs =>
    if c = '*' then
      match cs with
      | c2 :: cs2 => if c2 = '/' then some cs2 else splitAtClose cs
      | [] => none
    else splitAtClose cs

/-- Fuel-driven core of `re.sub(r'/\*.*?\*/', '', s, flags=re.DOTALL)`:
delete each block comment from `/*` to the nearest following `*/`;
an unclosed `/*` matches nothing and is kept verbatim. -/
def stripBlockF : Nat → List Char → List Char
  | 0, s => s
  | _ + 1, [] => []
  | fuel + 1, c :: cs =>
    if c = '/' then
      match cs with
      | c2 :: cs2 =>
        if c2 = '*' then
          match splitAtClose cs2 with
          | some r => stripBlockF fuel r
          | none => c :: c2 :: stripBlockF fuel cs2
        else c :: stripBlockF fuel cs
      | [] => [c]
    else c :: stripBlockF fuel cs

/-- Remove block `/* ... */` comments (line 32 of add_schema_bentivi.py). -/
def stripBlockComments (s : List Char) : List Char := stripBlockF (s.length + 1) s

/-- Comment-stripped document, as computed at the top of
`extract_table_names_from_sql`: line comments first, then block comments. -/
def cleanSql (sql : List Char) : List Char := stripBlockComments (stripLineComments sql)

/-- Match, at the start of `s`, the regex `<keywords>\s+([A-Za-z_][A-Za-z0-9_]*)\b`
used by the extraction patterns, returning the captured identifier and the
suffix after the match.  The identifier is taken greedily, so the trailing
`\b` holds by construction. -/
def matchKwIdent (kws : List (List Char)) (s : List Char) :
    Option (List Char × List Char) :=
  match matchWords kws s with
  | none => none
  | some s1 =>
    match takeWs s1 with
    | none => none
    | some s2 =>
      match s2 with
      | [] => none
      | c :: cs =>
        if c.isAlpha || c == '_' then
          some (c :: cs.takeWhile isWordChar, cs.dropWhile isWordChar)
        else none

/-- Fuel-driven `re.findall` scan for one extraction pattern: leftmost,
non-overlapping matches, `\b` before the keyword (tracked by `prevW`,
whether the previous character is a word character), continuing after
each match. -/
def findScanF (kws : List (List Char)) : Nat → Bool → List Char → List (List Char)
  | 0, _, _ => []
  | _ + 1, _, [] => []
  | fuel + 1, prevW, c :: cs =>
    if prevW then findScanF kws fuel (isWordChar c) cs
    else
      match matchKwIdent kws (c :: cs) with
      | some (ident, rest) => ident :: findScanF kws fuel true rest
      | none => findScanF kws fuel (isWordChar c) cs

/-- All identifiers captured by one extraction pattern over a document. -/
def findScan (kws : List (List Char)) (s : List Char) : List (List Char) :=
  findScanF kws (s.length + 1) false s

/-- Boolean membership in a list of names (`match.upper() not in [...]`). -/
def memb (x : List Char) : List (List Char) → Bool
  | [] => false
  | k :: ks => x == k || memb x ks

/-- Reserved-word denylist of `extract_table_names_from_sql`
(lines 51-54 of add_schema_bentivi.py). -/
def sqlKeywords : List (List Char) :=
  (["SELECT", "WHERE", "ORDER", "GROUP", "HAVING", "UNION", "ALL",
    "DISTINCT", "TOP", "LIMIT", "OFFSET", "INTO", "VALUES"] :
    List String).map String.toList

/-- The eight extraction regexes of `extract_table_names_from_sql`
(lines 35-44 of add_schema_bentivi.py), each given by its keyword phrase. -/
def extractPatterns : List (List (List Char)) :=
  [["FROM".toList], ["JOIN".toList],
   ["INNER".toList, "JOIN".toList], ["LEFT".toList, "JOIN".toList],
   ["RIGHT".toList, "JOIN".toList], ["UPDATE".toList],
   ["INSERT".toList, "INTO".toList], ["DELETE".toList, "FROM".toList]]

/-- Uppercased captures of all extraction patterns over the comment-stripped
document, with reserved words filtered out (the `tables.add(match.upper())`
loop of lines 46-55). -/
def candidateNames (sql : List Char) : List (List Char) :=
  ((extractPatterns.foldl (fun acc kws => acc ++ findScan kws (cleanSql sql)) []).map
      upperStr).filter (fun m => !(memb m sqlKeywords))

/-- Keep the first occurrence of each name (the `set` used by the source;
the set only feeds a canonical sort, so iteration order is immaterial). -/
def dedupF (seen : List (List Char)) : List (List Char) → List (List Char)
  | [] => []
  | x :: xs => if memb x seen then dedupF seen xs else x :: dedupF (x :: seen) xs

/-- Code-point lexicographic order on names, as Python string `<`. -/
def lexLt : List Char → List Char → Bool
  | [], [] => false
  | [], _ :: _ => true
  | _ :: _, [] => false
  | a :: as, b :: bs =>
    Nat.blt a.toNat b.toNat || (Nat.beq a.toNat b.toNat && lexLt as bs)

/-- Insert into an ascending lexicographically sorted list. -/
def insLex (x : List Char) : List (List Char) → List (List Char)
  | [] => [x]
  | y :: ys => if lexLt x y then x :: y :: ys else y :: insLex x ys

/-- Ascending lexicographic sort (`sorted(list(tables))`). -/
def sortLex : List (List Char) → List (List Char)
  | [] => []
  | x :: xs => insLex x (sortLex xs)

/-- Embedding of `extract_table_names_from_sql` (lines 28-57 of
add_schema_bentivi.py): strip comments, scan the eight patterns, uppercase,
filter reserved words, deduplicate, sort. -/
def extract_table_names_from_sql (sql : List Char) : List (List Char) :=
  sortLex (dedupF [] (candidateNames sql))

/-- Match, at the start of `s`, the substitution regex
`<keywords>\s+<table>\b` (case-insensitive), returning the suffix after
the match. -/
def matchKwTable (kws : List (List Char)) (t s : List Char) : Option (List Char) :=
  match matchWords kws s with
  | none => none
  | some s1 =>
    match takeWs s1 with
    | none => none
    | some s2 =>
      match matchCI t s2 with
      | none => none
      | some s3 => if boundaryOk s3 then some s3 else none

/-- Fuel-driven `re.sub` scan for one substitution pattern: each leftmost
match of `\b<keywords>\s+<table>\b` is replaced by the literal `repl`,
scanning resumes after the match (the last matched character is the last
character of the table name, a word character, so `prevW` becomes true). -/
def subScanF (kws : List (List Char)) (t repl : List Char) :
    Nat → Bool → List Char → List Char
  | 0, _, s => s
  | _ + 1, _, [] => []
  | fuel + 1, prevW, c :: cs =>
    if prevW then c :: subScanF kws t repl fuel (isWordChar c) cs
    else
      match matchKwTable kws t (c :: cs) with
      | some r => repl ++ subScanF kws t repl fuel true r
      | none => c :: subScanF kws t repl fuel (isWordChar c) cs

/-- One `re.sub(pattern, replacement, text, flags=re.IGNORECASE)` pass. -/
def subKw (kws : List (List Char)) (t repl s : List Char) : List Char :=
  subScanF kws t repl (s.length + 1) false s

/-- Qualified-reference pattern `<schema>.<table>` searched by the guard
of line 93 of add_schema_bentivi.py. -/
def qualPat (schema t : List Char) : List Char := schema ++ '.' :: t

/-- Case-insensitive match of `pat` at the start of `s`, followed by `\b`. -/
def hitAt (pat s : List Char) : Bool :=
  match matchCI pat s with
  | some r => boundaryOk r
  | none => false

/-- Embedding of `re.search(pat + r'\b', s, flags=re.IGNORECASE)` for a
literal pattern `pat`: some suffix of `s` starts with `pat` (there is no
`\b` on the left in the source's guard). -/
def searchCIWithB (pat : List Char) : List Char → Bool
  | [] => hitAt pat []
  | c :: cs => hitAt pat (c :: cs) || searchCIWithB pat cs

/-- The eight substitution patterns of `add_schema_to_sql`
(lines 77-89 of add_schema_bentivi.py), in source order, paired with their
literal replacements `f'<KEYWORD> {schema_name}.{table}'`. -/
def asPatterns (schema t : List Char) : List (List (List Char) × List Char) :=
  [(["FROM".toList], "FROM ".toList ++ schema ++ '.' :: t),
   (["JOIN".toList], "JOIN ".toList ++ schema ++ '.' :: t),
   (["INNER".toList, "JOIN".toList], "INNER JOIN ".toList ++ schema ++ '.' :: t),
   (["LEFT".toList, "JOIN".toList], "LEFT JOIN ".toList ++ schema ++ '.' :: t),
   (["RIGHT".toList, "JOIN".toList], "RIGHT JOIN ".toList ++ schema ++ '.' :: t),
   (["UPDATE".toList], "UPDATE ".toList ++ schema ++ '.' :: t),
   (["INSERT".toList, "INTO".toList], "INSERT INTO ".toList ++ schema ++ '.' :: t),
   (["DELETE".toList, "FROM".toList], "DELETE FROM ".toList ++ schema ++ '.' :: t)]

/-- One iteration of the inner loop of `add_schema_to_sql` (lines 91-97):
skip the pattern when `<schema>.<table>` already occurs in the working text,
otherwise substitute and count a modification when the text changed. -/
def applyPattern (schema t : List Char) (acc : List Char × Nat)
    (p : List (List Char) × List Char) : List Char × Nat :=
  if searchCIWithB (qualPat schema t) acc.1 then acc
  else if subKw p.1 t p.2 acc.1 = acc.1 then acc
  else (subKw p.1 t p.2 acc.1, acc.2 + 1)

/-- Process one extracted table: fold the eight patterns over the working
text and the modification counter. -/
def processTable (schema : List Char) (acc : List Char × Nat) (t : List Char) :
    List Char × Nat :=
  (asPatterns schema t).foldl (applyPattern schema t) acc

/-- Embedding of `add_schema_to_sql` (lines 59-100 of add_schema_bentivi.py),
returning the rewritten text together with the `modifications` counter. -/
def addSchemaRun (sql schema : List Char) : List Char × Nat :=
  (extract_table_names_from_sql sql).foldl (processTable schema) (sql, 0)

/-- The text returned by `add_schema_to_sql`. -/
def add_schema_to_sql (sql schema : List Char) : List Char :=
  (addSchemaRun sql schema).1

/-- Fixed table list of `add_bentivi_schema` (lines 15-23 of add_schema.py),
in source order and casing. -/
def bentiviTables : List (List Char) :=
  (["estoque", "topctrl", "receber", "cabrec", "notacrc", "INOTA", "NOTA",
    "CICLO", "CABTAB", "TRANSAC", "PROPRIED", "MUNICIPIO", "PESSOAL",
    "FUNCAOTOPER", "TIPOOPER", "CFO", "PRODSERV", "GRUPO", "SUBGRUPO",
    "PRODUTO", "transac", "condicao", "indexador", "INDVALOR", "inota",
    "nota", "notaorig", "INFENTRA", "NOTAORIG", "pedido", "ipedido",
    "CULTURA", "receita", "ireceita", "NFENTRA", "IDOCDESFAZ", "DOCDESFAZ",
    "CABDESFAZ"] : List String).map String.toList

/-- Stable insertion into a list sorted by decreasing length: walk past
strictly longer entries, stop at the first entry of equal or smaller
length. -/
def insLenDesc (x : List Char) : List (List Char) → List (List Char)
  | [] => [x]
  | y :: ys => if x.length < y.length then y :: insLenDesc x ys else x :: y :: ys

/-- Stable sort by decreasing length (`sorted(..., key=len, reverse=True)`,
which Python guarantees to be stable). -/
def sortLenDesc : List (List Char) → List (List Char)
  | [] => []
  | x :: xs => insLenDesc x (sortLenDesc xs)

/-- The deduplicated, longest-first table list processed by
`add_bentivi_schema` (line 26 of add_schema.py).  Python's `set` leaves the
relative order of equal-length names unspecified (string hashing is
randomized); the embedding keeps first-occurrence order for ties, which is
observationally irrelevant for equal-length names that differ only in case,
as the ambiguous pairs here do. -/
def bentiviUnique : List (List Char) := sortLenDesc (dedupF [] bentiviTables)

/-- Alternatives of the keyword group
`(FROM|INNER\s+JOIN|LEFT\s+JOIN|RIGHT\s+JOIN|FULL\s+JOIN|JOIN)`
(line 46 of add_schema.py), in source order. -/
def bentiviAlts : List (List (List Char)) :=
  [["FROM".toList], ["INNER".toList, "JOIN".toList],
   ["LEFT".toList, "JOIN".toList], ["RIGHT".toList, "JOIN".toList],
   ["FULL".toList, "JOIN".toList], ["JOIN".toList]]

/-- Try one alternative of the keyword group followed by `\s+<table>\b`;
on success return the keyword text as it appears in the document (the
`\1` capture) and the suffix after the whole match. -/
def altMatch (kws : List (List Char)) (t s : List Char) :
    Option (List Char × List Char) :=
  match matchWords kws s with
  | none => none
  | some s1 =>
    match takeWs s1 with
    | none => none
    | some s2 =>
      match matchCI t s2 with
      | none => none
      | some s3 =>
        if boundaryOk s3 then some (s.take (s.length - s1.length), s3) else none

/-- Regex alternation: try the alternatives in order at one position;
the first alternative whose whole pattern matches wins. -/
def tryAlts : List (List (List Char)) → List Char → List Char →
    Option (List Char × List Char)
  | [], _, _ => none
  | kws :: more, t, s =>
    match altMatch kws t s with
    | some res => some res
    | none => tryAlts more t s

/-- Reversed text of the negative lookbehind `(?<!BENTIVI\.)`. -/
def revSchemaDot : List Char := "BENTIVI.".toList.reverse

/-- Fuel-driven `re.sub` scan for
`(?<!BENTIVI\.)\b(FROM|INNER\s+JOIN|...|JOIN)\s+<table>\b` with replacement
`\1 BENTIVI.<table>` (lines 45-50 of add_schema.py).  `rev` is the reversed
prefix of the original document already scanned: its head decides the `\b`,
and its first eight characters decide the lookbehind (lookarounds inspect
the original text, not the replacement output). -/
def bentiviSubF (t : List Char) : Nat → List Char → List Char → List Char
  | 0, _, s => s
  | _ + 1, _, [] => []
  | fuel + 1, rev, c :: cs =>
    if (match rev with | [] => false | p :: _ => isWordChar p) ||
        startsCI revSchemaDot rev then
      c :: bentiviSubF t fuel (c :: rev) cs
    else
      match tryAlts bentiviAlts t (c :: cs) with
      | some (kwText, rest) =>
        kwText ++ " BENTIVI.".toList ++ t ++
          bentiviSubF t fuel
            (((c :: cs).take ((c :: cs).length - rest.length)).reverse ++ rev) rest
      | none => c :: bentiviSubF t fuel (c :: rev) cs

/-- One `re.sub` pass of `add_bentivi_schema` for one table. -/
def bentiviSub (t s : List Char) : List Char := bentiviSubF t (s.length + 1) [] s

/-- Inner pattern loop of `add_bentivi_schema` (lines 33-50 of add_schema.py):
all three entries of its `patterns` list contain `FROM` or `JOIN`, so the
body executes the same `re.sub` three times per table. -/
def bentiviApply (sql t : List Char) : List Char :=
  bentiviSub t (bentiviSub t (bentiviSub t sql))

/-- Embedding of `add_bentivi_schema` (lines 9-52 of add_schema.py):
fold the combined FROM/JOIN substitution over the longest-first table list. -/
def add_bentivi_schema (sql : List Char) : List Char :=
  bentiviUnique.foldl bentiviApply sql

/-- Suffix of a document from its first `--` on (used to state what the
comment region of a document is in claim C3's scenario). -/
def commentPart : List Char → List Char
  | [] => []
  | c :: cs => if startsEx "--".toList (c :: cs) then c :: cs else commentPart cs

/-- Adjacent lengths are non-increasing (longest-first processing order). -/
def lenSortedDesc : List (List Char) → Bool
  | [] => true
  | [_] => true
  | x :: y :: rest => Nat.ble (y.length) (x.length) && lenSortedDesc (y :: rest)

/-! Helper lemmas about the list utilities used by the extraction pass. -/

theorem memb_of_mem {x : List Char} {ks : List (List Char)} (h : x ∈ ks) :
    memb x ks = true := by
  induction ks with
  | nil => cases h
  | cons k ks ih =>
    cases h with
    | head => simp [memb]
    | tail _ h2 => simp [memb, ih h2]

theorem mem_of_dedupF {x : List Char} :
    ∀ (seen l : List (List Char)), x ∈ dedupF seen l → x ∈ l := by
  intro seen l
  induction l generalizing seen with
  | nil => intro h; simp [dedupF] at h
  | cons y ys ih =>
    intro h
    cases hm : memb y seen with
    | true =>
      rw [dedupF, if_pos hm] at h
      exact List.mem_cons_of_mem _ (ih _ h)
    | false =>
      rw [dedupF, if_neg (by simp [hm])] at h
      rcases List.mem_cons.mp h with h1 | h2
      · exact h1 ▸ List.mem_cons_self _ _
      · exact List.mem_cons_of_mem _ (ih _ h2)

theorem mem_of_insLex {x a : List Char} :
    ∀ l : List (List Char), x ∈ insLex a l → x = a ∨ x ∈ l := by
  intro l
  induction l with
  | nil =>
    intro h
    simp [insLex] at h
    exact Or.inl h
  | cons y ys ih =>
    intro h
    cases hl : lexLt a y with
    | true =>
      rw [insLex, if_pos hl] at h
      rcases List.mem_cons.mp h with h1 | h2
      · exact Or.inl h1
      · exact Or.inr h2
    | false =>
      rw [insLex, if_neg (by simp [hl])] at h
      rcases List.mem_cons.mp h with h1 | h2
      · exact Or.inr (h1 ▸ List.mem_cons_self _ _)
      · rcases ih h2 with h3 | h4
        · exact Or.inl h3
        · exact Or.inr (List.mem_cons_of_mem _ h4)

theorem mem_of_sortLex {x : List Char} :
    ∀ l : List (List Char), x ∈ sortLex l → x ∈ l := by
  intro l
  induction l with
  | nil => intro h; simp [sortLex] at h
  | cons y ys ih =>
    intro h
    rw [sortLex] at h
    rcases mem_of_insLex _ h with h1 | h2
    · exact h1 ▸ List.mem_cons_self _ _
    · exact List.mem_cons_of_mem _ (ih h2)

/-! Helper lemmas about the rewriting loop of `add_schema_to_sql`. -/

theorem applyPattern_spec (schema t : List Char) (acc : List Char × Nat)
    (p : List (List Char) × List Char) :
    acc.2 ≤ (applyPattern schema t acc p).2 ∧
      ((applyPattern schema t acc p).2 = acc.2 → applyPattern schema t acc p = acc) := by
  unfold applyPattern
  split
  · exact ⟨Nat.le_refl _, fun _ => rfl⟩
  · split
    · exact ⟨Nat.le_refl _, fun _ => rfl⟩
    · exact ⟨Nat.le_succ _, fun h => absurd h (Nat.succ_ne_self acc.2)⟩

theorem foldl_count_spec {α : Type} (f : (List Char × Nat) → α → (List Char × Nat))
    (hf : ∀ acc a, acc.2 ≤ (f acc a).2 ∧ ((f acc a).2 = acc.2 → f acc a = acc)) :
    ∀ (l : List α) (acc : List Char × Nat),
      acc.2 ≤ (List.foldl f acc l).2 ∧
        ((List.foldl f acc l).2 = acc.2 → List.foldl f acc l = acc) := by
  intro l
  induction l with
  | nil => intro acc; exact ⟨Nat.le_refl _, fun _ => rfl⟩
  | cons a l ih =>
    intro acc
    simp only [List.foldl]
    refine ⟨Nat.le_trans (hf acc a).1 (ih (f acc a)).1, fun h => ?_⟩
    have hle : (f acc a).2 ≤ acc.2 := Nat.le_trans (ih (f acc a)).1 (Nat.le_of_eq h)
    have heq : f acc a = acc := (hf acc a).2 (Nat.le_antisymm hle (hf acc a).1)
    rw [heq] at h ⊢
    exact (ih acc).2 h

theorem processTable_spec (schema : List Char) (acc : List Char × Nat) (t : List Char) :
    acc.2 ≤ (processTable schema acc t).2 ∧
      ((processTable schema acc t).2 = acc.2 → processTable schema acc t = acc) := by
  unfold processTable
  exact foldl_count_spec _ (fun a p => applyPattern_spec schema t a p) _ acc

theorem guard_skip (schema t : List Char) :
    ∀ (ps : List (List (List Char) × List Char)) (acc : List Char × Nat),
      searchCIWithB (qualPat schema t) acc.1 = true →
      List.foldl (applyPattern schema t) acc ps = acc := by
  intro ps
  induction ps with
  | nil => intro acc _; rfl
  | cons p ps ih =>
    intro acc h
    have hstep : applyPattern schema t acc p = acc := by
      unfold applyPattern
      rw [if_pos h]
    simp only [List.foldl, hstep]
    exact ih acc h

/-! Claim theorems. -/

set_option maxRecDepth 8000

/-- C1 (code bug): the qualifier is not idempotent.  On the document
`SELECT * FROM NOTA` one application yields `SELECT * FROM BENTIVI.NOTA`;
a second application extracts `BENTIVI` itself as a table name (the
extraction regex `\bFROM\s+([A-Za-z_][A-Za-z0-9_]*)\b` stops at the dot)
and rewrites `FROM BENTIVI` again, producing
`SELECT * FROM BENTIVI.BENTIVI.NOTA`, so
`qualify (qualify s) ≠ qualify s`. -/
theorem c1_code_bug :
    add_schema_to_sql ("SELECT * FROM NOTA".toList) ("BENTIVI".toList) =
        "SELECT * FROM BENTIVI.NOTA".toList ∧
      add_schema_to_sql
          (add_schema_to_sql ("SELECT * FROM NOTA".toList) ("BENTIVI".toList))
          ("BENTIVI".toList) =
        "SELECT * FROM BENTIVI.BENTIVI.NOTA".toList ∧
      add_schema_to_sql
          (add_schema_to_sql ("SELECT * FROM NOTA".toList) ("BENTIVI".toList))
          ("BENTIVI".toList) ≠
        add_schema_to_sql ("SELECT * FROM NOTA".toList) ("BENTIVI".toList) :=
  ⟨by decide, by decide, by decide⟩

/-- C2 (code bug): the already-qualified scenario is not left untouched.
On `UPDATE BENTIVI.CFO SET X=1` the extraction captures `BENTIVI` as a
table name, the guard `re.search(r'BENTIVI\.BENTIVI\b', ...)` finds
nothing, and the `UPDATE` pattern rewrites `UPDATE BENTIVI` into
`UPDATE BENTIVI.BENTIVI`, producing exactly the double qualification
`BENTIVI.BENTIVI.CFO` that the claim rules out. -/
theorem c2_code_bug :
    add_schema_to_sql ("UPDATE BENTIVI.CFO SET X=1".toList) ("BENTIVI".toList) =
        "UPDATE BENTIVI.BENTIVI.CFO SET X=1".toList ∧
      add_schema_to_sql ("UPDATE BENTIVI.CFO SET X=1".toList) ("BENTIVI".toList) ≠
        "UPDATE BENTIVI.CFO SET X=1".toList :=
  ⟨by decide, by decide⟩

/-- C3 (counterexample): comment regions can be rewritten.  Comments are
stripped only for the extraction scan; the substitutions run on the full
original text, so in `SELECT * FROM NOTA\n-- FROM NOTA` the `FROM NOTA`
inside the line comment is rewritten too, and the comment region of the
output differs from the comment region of the input. -/
theorem c3_cex :
    add_schema_to_sql ("SELECT * FROM NOTA\n-- FROM NOTA".toList) ("BENTIVI".toList) =
        "SELECT * FROM BENTIVI.NOTA\n-- FROM BENTIVI.NOTA".toList ∧
      commentPart
          (add_schema_to_sql ("SELECT * FROM NOTA\n-- FROM NOTA".toList)
            ("BENTIVI".toList)) ≠
        commentPart ("SELECT * FROM NOTA\n-- FROM NOTA".toList) :=
  ⟨by decide, by decide⟩

/-- C3 (amended): comments are stripped before scanning, so a table name
occurring only inside comments is never extracted and a document whose
comment-stripped text yields no table names is returned unchanged;
the substitution pass itself, however, operates on the full text, so a
comment mentioning a table that also occurs in live SQL may be rewritten. -/
theorem c3_amended (sql schema : List Char)
    (h : extract_table_names_from_sql sql = []) :
    add_schema_to_sql sql schema = sql := by
  unfold add_schema_to_sql addSchemaRun
  rw [h]
  rfl

/-- Witness for C3 (amended): the spec's own example `-- FROM LEGACY_TABLE`
yields no table names and is returned unchanged. -/
theorem c3_amended_witness :
    extract_table_names_from_sql ("-- FROM LEGACY_TABLE".toList) = [] ∧
      add_schema_to_sql ("-- FROM LEGACY_TABLE".toList) ("BENTIVI".toList) =
        "-- FROM LEGACY_TABLE".toList :=
  ⟨by decide, c3_amended _ _ (by decide)⟩

/-- C4 (code bug): a bare `FROM A` clause need not end up as
`FROM BENTIVI.A` in the output.  In
`SELECT * FROM A; UPDATE BENTIVI.CFO SET X=1` the table `A` is first
rewritten to `FROM BENTIVI.A`, but the extraction also captured `BENTIVI`
as a table, and its `FROM` pattern then rewrites `FROM BENTIVI` into
`FROM BENTIVI.BENTIVI`, destroying the `FROM BENTIVI.A` just produced:
the output contains no `FROM BENTIVI.A` although `A` is unqualified in
the input, not reserved, and boundary-delimited. -/
theorem c4_code_bug :
    add_schema_to_sql ("SELECT * FROM A; UPDATE BENTIVI.CFO SET X=1".toList)
        ("BENTIVI".toList) =
        "SELECT * FROM BENTIVI.BENTIVI.A; UPDATE BENTIVI.CFO SET X=1".toList ∧
      containsSub ("FROM A;".toList)
        ("SELECT * FROM A; UPDATE BENTIVI.CFO SET X=1".toList) = true ∧
      containsSub ("BENTIVI.A".toList)
        ("SELECT * FROM A; UPDATE BENTIVI.CFO SET X=1".toList) = false ∧
      containsSub ("FROM BENTIVI.A".toList)
        (add_schema_to_sql ("SELECT * FROM A; UPDATE BENTIVI.CFO SET X=1".toList)
          ("BENTIVI".toList)) = false :=
  ⟨by decide, by decide, by decide, by decide⟩

/-- C5 (counterexample): the replacement does not preserve the original
keyword casing or whitespace layout.  On `select * from\n  nota` the
claim predicts `select * from\n  BENTIVI.nota`; the code produces
`select * FROM BENTIVI.NOTA` instead (the replacement is the literal
f-string `FROM {schema}.{TABLE}` with the uppercased extracted name). -/
theorem c5_cex :
    add_schema_to_sql ("select * from\n  nota".toList) ("BENTIVI".toList) ≠
      "select * from\n  BENTIVI.nota".toList :=
  by decide

/-- C5 (amended): each replacement rewrites the matched keyword+identifier
span into `<KEYWORD> <schema>.<TABLE>` with the keyword written in the
canonical upper-case spelling of the pattern, a single space, and the
uppercased extracted table name; the original casing and whitespace layout
of the matched span are lost: `select * from\n  nota` becomes
`select * FROM BENTIVI.NOTA`. -/
theorem c5_thm :
    add_schema_to_sql ("select * from\n  nota".toList) ("BENTIVI".toList) =
      "select * FROM BENTIVI.NOTA".toList :=
  by decide

/-- C6 (counterexample): not every document containing `FROM NOTAORIG`
gets that reference qualified by `add_bentivi_schema`.  The
no-double-qualification lookbehind `(?<!BENTIVI\.)` sits before the
keyword, so in `BENTIVI.FROM NOTAORIG` the `FROM NOTAORIG` clause is
skipped entirely and the output contains no `FROM BENTIVI.NOTAORIG`
in any casing. -/
theorem c6_cex :
    add_bentivi_schema ("BENTIVI.FROM NOTAORIG".toList) =
        "BENTIVI.FROM NOTAORIG".toList ∧
      containsSub ("FROM NOTAORIG".toList) ("BENTIVI.FROM NOTAORIG".toList) = true ∧
      containsSubCI ("FROM BENTIVI.NOTAORIG".toList)
        (add_bentivi_schema ("BENTIVI.FROM NOTAORIG".toList)) = false :=
  ⟨by decide, by decide, by decide⟩

/-- C6 (amended): with `NOTA` and `NOTAORIG` both on the fixed table list,
qualifying `SELECT * FROM NOTAORIG WHERE X=1` yields `FROM BENTIVI.NOTAORIG`
up to letter case (the inserted name's casing follows the internal list
entry), and never the corrupted `BENTIVI.NOTA ORIG`: matching is
whole-identifier (`\b`-delimited, so the `NOTA` pattern cannot end inside
`NOTAORIG`) and the fixed table list is processed longest-name-first;
however, a clause whose keyword is immediately preceded by `BENTIVI.` is
skipped by the misplaced lookbehind guard. -/
theorem c6_thm :
    containsSubCI ("FROM BENTIVI.NOTAORIG".toList)
        (add_bentivi_schema ("SELECT * FROM NOTAORIG WHERE X=1".toList)) = true ∧
      containsSubCI ("BENTIVI.NOTA ORIG".toList)
        (add_bentivi_schema ("SELECT * FROM NOTAORIG WHERE X=1".toList)) = false ∧
      containsSubCI ("NOTA ORIG".toList)
        (add_bentivi_schema ("SELECT * FROM NOTAORIG WHERE X=1".toList)) = false ∧
      lenSortedDesc bentiviUnique = true :=
  ⟨by decide, by decide, by decide, by decide⟩

/-- C7 (confirmed): aliases are not absorbed into the qualification.
On `SELECT * FROM PEDIDO P JOIN IPEDIDO I ON P.ID = I.PEDIDO_ID` with
schema `BENTIVI`, only the identifier immediately after each clause
keyword is qualified and the output is exactly
`SELECT * FROM BENTIVI.PEDIDO P JOIN BENTIVI.IPEDIDO I ON P.ID = I.PEDIDO_ID`. -/
theorem c7_thm :
    add_schema_to_sql
        ("SELECT * FROM PEDIDO P JOIN IPEDIDO I ON P.ID = I.PEDIDO_ID".toList)
        ("BENTIVI".toList) =
      "SELECT * FROM BENTIVI.PEDIDO P JOIN BENTIVI.IPEDIDO I ON P.ID = I.PEDIDO_ID".toList :=
  by decide

/-- C8 (confirmed): no document can make a reserved word of the denylist
a table reference: every name returned by `extract_table_names_from_sql`
has passed the `match.upper() not in [...]` filter, so a denylist word is
never extracted, and consequently no substitution pattern is ever built
for it (the rewriting loop only builds patterns for extracted names). -/
theorem c8_thm (sql : List Char) (w : List Char) (hw : w ∈ sqlKeywords) :
    w ∉ extract_table_names_from_sql sql := by
  intro hmem
  unfold extract_table_names_from_sql at hmem
  have h1 : w ∈ dedupF [] (candidateNames sql) := mem_of_sortLex _ hmem
  have h2 : w ∈ candidateNames sql := mem_of_dedupF _ _ h1
  have h3 := (List.mem_filter.mp h2).2
  rw [memb_of_mem hw] at h3
  simp at h3

/-- Witness for C8: `SELECT` is on the denylist and is not extracted from
`SELECT * FROM SELECT`, even though it directly follows `FROM`. -/
theorem c8_witness :
    ("SELECT".toList ∈ sqlKeywords) ∧
      "SELECT".toList ∉ extract_table_names_from_sql ("SELECT * FROM SELECT".toList) :=
  ⟨by decide, c8_thm _ _ (by decide)⟩

/-- C9 (confirmed): `add_schema_to_sql` is a total function (it is defined
by structurally terminating recursion, so it terminates and returns an
output for every input), and when its `modifications` counter is zero the
returned text is the input text unchanged: every loop iteration either
leaves both the text and the counter untouched or increments the counter
together with the text change. -/
theorem c9_thm (sql schema : List Char) (h : (addSchemaRun sql schema).2 = 0) :
    add_schema_to_sql sql schema = sql := by
  have hs := foldl_count_spec (processTable schema)
    (fun acc t => processTable_spec schema acc t)
    (extract_table_names_from_sql sql) (sql, 0)
  unfold addSchemaRun at h
  unfold add_schema_to_sql addSchemaRun
  rw [hs.2 h]

/-- Witness for C9: the document `HELLO WORLD` admits zero substitutions
and is returned unchanged. -/
theorem c9_witness :
    (addSchemaRun ("HELLO WORLD".toList) ("BENTIVI".toList)).2 = 0 ∧
      add_schema_to_sql ("HELLO WORLD".toList) ("BENTIVI".toList) =
        "HELLO WORLD".toList :=
  ⟨by decide, c9_thm _ _ (by decide)⟩

/-- C10 (confirmed): once `<schema>.<table>` occurs in the working text,
the already-qualified guard makes the whole remaining pattern fold for
that table a no-op; consequently, on
`SELECT * FROM NOTA JOIN NOTA ON X=1` (where `NOTA` is nowhere
qualified) the `FROM` pattern fires first, and the `JOIN NOTA` occurrence
is left bare. -/
theorem c10_thm :
    (∀ (schema t : List Char) (ps : List (List (List Char) × List Char))
        (acc : List Char × Nat),
        searchCIWithB (qualPat schema t) acc.1 = true →
        List.foldl (applyPattern schema t) acc ps = acc) ∧
      add_schema_to_sql ("SELECT * FROM NOTA JOIN NOTA ON X=1".toList)
          ("BENTIVI".toList) =
        "SELECT * FROM BENTIVI.NOTA JOIN NOTA ON X=1".toList ∧
      containsSub ("JOIN NOTA ".toList)
        (add_schema_to_sql ("SELECT * FROM NOTA JOIN NOTA ON X=1".toList)
          ("BENTIVI".toList)) = true ∧
      containsSub ("JOIN BENTIVI.NOTA".toList)
        (add_schema_to_sql ("SELECT * FROM NOTA JOIN NOTA ON X=1".toList)
          ("BENTIVI".toList)) = false :=
  ⟨fun schema t => guard_skip schema t, by decide, by decide, by decide⟩

/-- Witness for C10: a concrete working text already containing
`BENTIVI.NOTA` is left untouched by the whole pattern fold for `NOTA`. -/
theorem c10_witness :
    searchCIWithB (qualPat ("BENTIVI".toList) ("NOTA".toList))
        ("X BENTIVI.NOTA Y".toList) = true ∧
      List.foldl (applyPattern ("BENTIVI".toList) ("NOTA".toList))
          ("X BENTIVI.NOTA Y".toList, 0)
          (asPatterns ("BENTIVI".toList) ("NOTA".toList)) =
        ("X BENTIVI.NOTA Y".toList, 0) :=
  ⟨by decide, c10_thm.1 _ _ _ _ (by decide)⟩
